import Mathlib

/-!
Shallow embedding of the bassil core: the lexer (src/src/cpp/lexer.cpp) and
the diagnostic renderer (src/src/cpp/error_report.cpp with the helpers from
src/src/cpp/utils.cpp).  Machine integers that stay small and non-negative in
the source (line/column counters, size_t positions) are modelled as Nat;
the renderer's C++ int columns, whose subtractions can go negative, are
modelled as Int.  exit(1), uncaught exceptions and infinite loops are made
explicit: the lexer runs on fuel (it does not terminate on every input) and
aborts are a distinct outcome; the renderer returns a structured result that
records whether it returned, exited, or died on an uncaught exception.
-/

namespace Bassil

/-- Token kinds, from the enum in src/src/headers/lexer.h.  TK_Flag is kept as
well: lexer.cpp still references it even though the final header dropped it. -/
inductive TokenKind where
  | TK_Identifier
  | TK_Argument
  | TK_String
  | TK_Semicolon
  | TK_Integer
  | TK_Float
  | TK_MathOperator
  | TK_EqualsSign
  | TK_TypeInteger
  | TK_TypeChar
  | TK_TypeFloat
  | TK_TypeString
  | TK_OpenParen
  | TK_CloseParen
  | TK_OpenBrace
  | TK_CloseBrace
  | TK_Comma
  | TK_LogicalOperator
  | TK_ComparisonOperator
  | TK_Unknown
  | TK_Flag
  deriving DecidableEq, Repr

/-- Token record from src/src/headers/lexer.h (type, value, line,
start_column, end_column).  The char*/union payload of lexer.cpp is modelled
as the single textual value. -/
structure Token where
  type : TokenKind
  value : String
  line : Nat
  start_column : Nat
  end_column : Nat
  deriving DecidableEq, Repr

/-- The delimiter set of parse_command / parse_argument / parse_flag in
lexer.cpp: space, newline, semicolon. -/
def isDelim (c : Char) : Bool :=
  c = ' ' || c = '\n' || c = ';'

/-- parse_command (lexer.cpp:28): advance pos while the character is not a
delimiter; returns the new pos. -/
def parse_command (l : List Char) (pos : Nat) : Nat :=
  pos + ((l.drop pos).takeWhile (fun c => !isDelim c)).length

/-- parse_argument (lexer.cpp:35): identical loop to parse_command. -/
def parse_argument (l : List Char) (pos : Nat) : Nat :=
  pos + ((l.drop pos).takeWhile (fun c => !isDelim c)).length

/-- parse_flag (lexer.cpp:21): identical loop to parse_command. -/
def parse_flag (l : List Char) (pos : Nat) : Nat :=
  pos + ((l.drop pos).takeWhile (fun c => !isDelim c)).length

/-- parse_integer (lexer.cpp:41): advance pos over isdigit characters. -/
def parse_integer (l : List Char) (pos : Nat) : Nat :=
  pos + ((l.drop pos).takeWhile Char.isDigit).length

/-- The scanning loop of parse_string (lexer.cpp:5-19) on the suffix that
starts at the current position: count the characters consumed before the
closing quote.  A backslash makes the loop skip two characters.  none models
the exit(1) taken when the end of input is reached without a closing quote
(including the case where a trailing backslash jumps past the end). -/
def parse_string_count : List Char → Option Nat
  | [] => none
  | c :: rest =>
    if c = '"' then some 0
    else if c = '\\' then
      match rest with
      | [] => none
      | _ :: rest2 =>
        match parse_string_count rest2 with
        | none => none
        | some n => some (n + 2)
    else
      match parse_string_count rest with
      | none => none
      | some n => some (n + 1)

/-- parse_string (lexer.cpp:5-19): on success pos lands on the closing quote
(which is not consumed); none is the exit(1) abort. -/
def parse_string (l : List Char) (pos : Nat) : Option Nat :=
  (parse_string_count (l.drop pos)).map (pos + ·)

/-- inputString.substr(start, len) as a String value. -/
def substrVal (l : List Char) (start len : Nat) : String :=
  ((l.drop start).take len).asString

/-- The mutable state of the while loop in lex (lexer.cpp:144-315).
emitted is a history field recording every token ever push_back-ed into the
command vector, in order; command.clear() does not erase it. -/
structure LexState where
  commandFound : Bool
  i : Nat
  line : Nat
  column : Nat
  command : List Token
  emitted : List Token
  deriving DecidableEq, Repr

/-- Result of one iteration of the lex loop: either the next state or the
exit(1) abort raised inside parse_string. -/
inductive StepRes where
  | next (s : LexState)
  | fatal (s : LexState)
  deriving DecidableEq, Repr

/-- The block after the switch (lexer.cpp:276-293): when a command is in
progress and the cursor sits at end-of-input, a semicolon or a newline, the
command vector is displayed, saved and cleared, and the terminator (if any)
is consumed. -/
def postFlush (l : List Char) (s : LexState) : LexState :=
  if s.commandFound ∧
      (s.i ≥ l.length ∨ l.getD s.i ' ' = ';' ∨ l.getD s.i ' ' = '\n') then
    if s.i < l.length ∧ (l.getD s.i ' ' = ';' ∨ l.getD s.i ' ' = '\n') then
      if l.getD s.i ' ' = '\n' then
        { s with
          command := [], commandFound := false,
          i := s.i + 1, line := s.line + 1, column := 1 }
      else
        { s with
          command := [], commandFound := false,
          i := s.i + 1, column := s.column + 1 }
    else { s with command := [], commandFound := false }
  else s

/-- One iteration of the while loop of lex (lexer.cpp:153-294), taken only
when s.i < l.length.  The i > size break (line 155) and the in-switch
newline case (line 221) are unreachable: the loop guard and the whitespace
branch at the top subsume them.  The space check at line 198 repeats the one
at line 163 and is likewise dead. -/
def lexStep (l : List Char) (s : LexState) : StepRes :=
  let c := l.getD s.i ' '
  if c = ' ' ∨ c = '\n' then
    if c = '\n' then
      .next { s with i := s.i + 1, line := s.line + 1, column := 1 }
    else
      .next { s with i := s.i + 1, column := s.column + 1 }
  else if s.commandFound = false then
    if c.isDigit then
      let j := parse_integer l s.i
      let tok : Token :=
        ⟨.TK_Integer, substrVal l s.i (j - s.i), s.line, s.column,
          s.column + (j - s.i) - 1⟩
      .next { s with
        i := j, line := s.line + 1, column := s.column + (j - s.i),
        command := s.command ++ [tok], emitted := s.emitted ++ [tok] }
    else
      let j := parse_command l s.i
      if j = s.i then
        .next { s with line := s.line + 1 }
      else
        let tok : Token :=
          ⟨.TK_Identifier, substrVal l s.i (j - s.i), s.line, s.column,
            s.column + (j - s.i) - 1⟩
        .next { s with
          i := j, line := s.line + 1,
          column := s.column + (j - s.i), commandFound := true,
          command := s.command ++ [tok], emitted := s.emitted ++ [tok] }
  else
    if c = ';' then
      let tok : Token := ⟨.TK_Semicolon, ";", s.line, s.column, s.column⟩
      .next { s with
        i := s.i + 1, column := s.column + 1,
        command := [], commandFound := false,
        emitted := s.emitted ++ [tok] }
    else if c = '"' then
      match parse_string l (s.i + 1) with
      | none => .fatal s
      | some j =>
        let tok : Token :=
          ⟨.TK_String, substrVal l (s.i + 1) (j - s.i - 1), s.line, s.column,
            (s.column + 1) + (j - s.i) - 2⟩
        .next (postFlush l
        { s with
          i := j, column := (s.column + 1) + (j - s.i),
          command := s.command ++ [tok], emitted := s.emitted ++ [tok] })
    else if c.isDigit then
      let j := parse_integer l s.i
      let tok : Token :=
        ⟨.TK_Integer, substrVal l s.i (j - s.i), s.line, s.column,
          s.column + (j - s.i) - 1⟩
      .next (postFlush l
        { s with
          i := j, column := s.column + (j - s.i),
          command := s.command ++ [tok], emitted := s.emitted ++ [tok] })
    else
      let j := parse_argument l s.i
      if j = s.i then
        .next (postFlush l { s with column := s.column + (j - s.i) })
      else
        let tok : Token :=
          ⟨.TK_Argument, substrVal l s.i (j - s.i), s.line, s.column,
            s.column + (j - s.i) - 1⟩
        .next (postFlush l
        { s with
          i := j, column := s.column + (j - s.i),
          command := s.command ++ [tok], emitted := s.emitted ++ [tok] })

/-- Outcome of a lex invocation.  ok carries the vector the function
returns (the command vector as left by the loop) and the full emission
history; fatal is exit(1) from parse_string, which delivers no token
sequence to any caller (the history records what had been pushed before). -/
inductive LexOutcome where
  | ok (tokens : List Token) (emitted : List Token)
  | fatal (emitted : List Token)
  deriving DecidableEq, Repr

/-- The while loop of lex, driven by fuel; none means the fuel ran out
(the C++ loop can run forever, e.g. on an input whose first non-blank
character is a semicolon, where parse_command consumes nothing and i never
advances). -/
def lexRun (l : List Char) : Nat → LexState → Option LexOutcome
  | 0, _ => none
  | fuel + 1, s =>
    if s.i < l.length then
      match lexStep l s with
      | .next s1 => lexRun l fuel s1
      | .fatal s1 => some (.fatal s1.emitted)
    else
      some (.ok s.command s.emitted)

/-- Initial state of lex: commandFound = false, i = 0, line = 1, column = 1,
empty command vector. -/
def initState : LexState := ⟨false, 0, 1, 1, [], []⟩

/-- lex (lexer.cpp:144-315) on a source string, with fuel. -/
def lex (fuel : Nat) (input : String) : Option LexOutcome :=
  lexRun input.toList fuel initState

/-- The emission history of an outcome (empty when the fuel ran out). -/
def emittedOf : Option LexOutcome → List Token
  | some (.ok _ em) => em
  | some (.fatal em) => em
  | none => []

/-- The token vector actually returned to the caller; fatal outcomes and
exhausted fuel return nothing. -/
def tokensOf : Option LexOutcome → List Token
  | some (.ok toks _) => toks
  | _ => []

/-! ## Utils: console state, text styling, file streams (src/src/cpp/utils.cpp) -/

namespace Utils

/-- A console whose mode the Windows API can read: the virtual-terminal
(ANSI) bit and whether SetConsoleMode succeeds on it. -/
structure Console where
  vt : Bool
  settable : Bool
  deriving DecidableEq, Repr

/-- The process-wide output device: none models a handle on which
GetConsoleMode fails (no console attached). -/
abbrev ConsoleState := Option Console

/-- isAnsiEnabledInConsole (utils.cpp:636-645): false when GetConsoleMode
fails, otherwise the ENABLE_VIRTUAL_TERMINAL_PROCESSING bit. -/
def isAnsiEnabledInConsole : ConsoleState → Bool
  | none => false
  | some c => c.vt

/-- enableAnsiInConsole (utils.cpp:594-609): returns 1 if GetConsoleMode or
SetConsoleMode fails, otherwise sets the VT bit and returns 0. -/
def enableAnsiInConsole : ConsoleState → Int × ConsoleState
  | none => (1, none)
  | some c => if c.settable then (0, some { c with vt := true }) else (1, some c)

/-- Hex digit of the character class [A-Fa-f0-9] used by isValidHexColor. -/
def isHexDigitChar (c : Char) : Bool :=
  c.isDigit || ('a' ≤ c && c ≤ 'f') || ('A' ≤ c && c ≤ 'F')

/-- Numeric value of one hex digit (std::stoi base 16 on a digit). -/
def hexDigitVal (c : Char) : Nat :=
  if c.isDigit then c.toNat - '0'.toNat
  else if 'a' ≤ c && c ≤ 'f' then c.toNat - 'a'.toNat + 10
  else if 'A' ≤ c && c ≤ 'F' then c.toNat - 'A'.toNat + 10
  else 0

/-- isValidHexColor (utils.cpp:670-674): the regex ^#([A-Fa-f0-9]\x7b6\x7d)$. -/
def isValidHexColor (s : String) : Bool :=
  match s.toList with
  | '#' :: rest => rest.length = 6 && rest.all isHexDigitChar
  | _ => false

/-- colorText (utils.cpp:701-713).  It does not consult the console state. -/
def colorText (text colorCode : String) : String :=
  if !isValidHexColor colorCode then "Invalid color code!"
  else
    let cs := colorCode.toList
    let r := 16 * hexDigitVal (cs.getD 1 '0') + hexDigitVal (cs.getD 2 '0')
    let g := 16 * hexDigitVal (cs.getD 3 '0') + hexDigitVal (cs.getD 4 '0')
    let b := 16 * hexDigitVal (cs.getD 5 '0') + hexDigitVal (cs.getD 6 '0')
    "\x1b[38;2;" ++ toString r ++ ";" ++ toString g ++ ";" ++ toString b
      ++ "m" ++ text ++ "\x1b[0m"

/-- The string boldText produces when ANSI is enabled (utils.cpp:748). -/
def boldWrap (text : String) : String := "\x1b[1m" ++ text ++ "\x1b[0m"

/-- The string italicText produces when ANSI is enabled (utils.cpp:785). -/
def italicWrap (text : String) : String := "\x1b[3m" ++ text ++ "\x1b[0m"

/-- boldText (utils.cpp:742-749): throws (none) when ANSI is not enabled in
the console. -/
def boldText (console : ConsoleState) (text : String) : Option String :=
  if isAnsiEnabledInConsole console then some (boldWrap text) else none

/-- italicText (utils.cpp:779-786): throws (none) when ANSI is not enabled. -/
def italicText (console : ConsoleState) (text : String) : Option String :=
  if isAnsiEnabledInConsole console then some (italicWrap text) else none

/-- A std::fstream over an in-memory content: open flag, raw character
content, the read cursor (tellg/seekg position, a character offset), and the
eof/fail status bits. -/
structure FStream where
  opened : Bool
  content : List Char
  pos : Nat
  eofFlag : Bool
  failFlag : Bool
  deriving DecidableEq, Repr

/-- std::getline: fails at once on a stream whose failbit (or eofbit) is set;
otherwise reads up to the next newline (consuming it) or to end-of-content
(setting eofbit); at end-of-content with nothing to read it sets both bits. -/
def getlineF (f : FStream) : String × FStream :=
  if f.failFlag then ("", f)
  else if f.eofFlag then ("", { f with failFlag := true })
  else if f.pos ≥ f.content.length then
    ("", { f with eofFlag := true, failFlag := true })
  else
    let rest := f.content.drop f.pos
    let ln := rest.takeWhile (fun c => c ≠ '\n')
    if ln.length < rest.length then
      (ln.asString, { f with pos := f.pos + ln.length + 1 })
    else
      (ln.asString, { f with pos := f.pos + ln.length, eofFlag := true })

/-- seekg: clears the eofbit and moves the cursor, unless the failbit is set
(then the operation does nothing). -/
def seekgF (p : Nat) (f : FStream) : FStream :=
  if f.failFlag then f else { f with pos := p, eofFlag := false }

/-- clear(): resets the status bits. -/
def clearF (f : FStream) : FStream := { f with eofFlag := false, failFlag := false }

/-- The restore sequence used on every exit path of readLineFromFile:
file.clear(); file.seekg(originalPos). -/
def restoreF (origPos : Nat) (f : FStream) : FStream := seekgF origPos (clearF f)

/-- The exceptions readLineFromFile can throw. -/
inductive ReadErr where
  | notOpen
  | zeroLine
  | outOfRange
  | readFail
  deriving DecidableEq, Repr

/-- The what() text of each exception (utils.cpp:1150-1182). -/
def ReadErr.what : ReadErr → String
  | .notOpen => "File is not open"
  | .zeroLine => "Line number must be greater than 0"
  | .outOfRange => "Line number exceeds the number of lines in the file"
  | .readFail => "Error reading from file"

/-- The for loop of readLineFromFile (utils.cpp:1165-1184), counting the
remaining iterations; every exit restores the saved position. -/
def readLoop (origPos : Nat) : Nat → FStream → String → Except ReadErr String × FStream
  | 0, f, line => (.ok line, restoreF origPos f)
  | n + 1, f, _line =>
    if f.eofFlag then (.error .outOfRange, restoreF origPos f)
    else
      let r := getlineF f
      if r.2.failFlag ∧ ¬ r.2.eofFlag then (.error .readFail, restoreF origPos f)
      else readLoop origPos n r.2 r.1

/-- readLineFromFile (utils.cpp:1146-1191). -/
def readLineFromFile (f : FStream) (lineNum : Nat) : Except ReadErr String × FStream :=
  if ¬ f.opened then (.error .notOpen, f)
  else if lineNum = 0 then (.error .zeroLine, f)
  else readLoop f.pos lineNum (seekgF 0 f) ""

end Utils

/-! ## Diagnostic renderer (src/src/cpp/error_report.cpp) -/

/-- std::string(count, ch) where count is a C++ int implicitly converted to
size_t: a negative count wraps to an astronomically large size and the
constructor throws std::length_error (none). -/
def intRep (n : Int) (c : Char) : Option String :=
  if n < 0 then none else some (List.replicate n.toNat c).asString

/-- Everything printColoredError writes before the underline: the header
chain of error_report.cpp:7-11 up to and including the "\n|    " that
precedes the underline. -/
def coloredHeader (filePath : String) (lineNumber startColumn endColumn : Int)
    (line : String) : String :=
  "\n ---> " ++ Utils.boldWrap "File: " ++ Utils.italicWrap filePath ++ ":"
    ++ toString lineNumber ++ ":" ++ toString startColumn
    ++ "\n|    " ++ Utils.boldWrap (Utils.colorText "Error on line: " "#fc0313")
    ++ Utils.boldWrap (toString lineNumber)
    ++ " " ++ Utils.colorText (Utils.boldWrap "Start column: ") "#ff9752"
    ++ Utils.boldWrap (toString startColumn)
    ++ " " ++ Utils.colorText (Utils.boldWrap "End column: ") "#ff9752"
    ++ Utils.boldWrap (toString endColumn)
    ++ "\n|    " ++ Utils.colorText line "#a8ff94"
    ++ "\n|    "

/-- printColoredError (error_report.cpp:6-14): the full text written to
std::cout.  The stream chain is evaluated left to right, so when a
std::string(count, ch) constructor throws, everything before it has already
been written: .error carries that partial output.  The first boldText call
throws before anything but the opening "\n ---> " is written when ANSI is
off (that path is unreachable from reportError). -/
def printColoredError (console : Utils.ConsoleState) (filePath : String)
    (lineNumber startColumn endColumn : Int) (line msg : String) :
    Except String String :=
  if Utils.isAnsiEnabledInConsole console = false then .error "\n ---> "
  else
    let seg1 := coloredHeader filePath lineNumber startColumn endColumn line
    match intRep (startColumn - 1) ' ' with
    | none => .error seg1
    | some sp =>
      match intRep (endColumn - startColumn) '^' with
      | none => .error (seg1 ++ sp)
      | some carets =>
        .ok (seg1 ++ sp ++ carets ++ "\n|    \n|    "
          ++ Utils.colorText msg "#94b0ff" ++ "\n" ++ "\n")

/-- Everything printPlainError writes before the underline
(error_report.cpp:17-20). -/
def plainHeader (filePath : String) (lineNumber startColumn endColumn : Int)
    (line : String) : String :=
  "Error in file: " ++ filePath ++ ":" ++ toString lineNumber ++ ":"
    ++ toString startColumn
    ++ "\nError on line: " ++ toString lineNumber
    ++ " Start column: " ++ toString startColumn
    ++ " End column: " ++ toString endColumn
    ++ "\n    " ++ line ++ "\n    "

/-- printPlainError (error_report.cpp:16-22): the full text written to
std::cout, with the same partial-output-on-throw convention. -/
def printPlainError (filePath : String)
    (lineNumber startColumn endColumn : Int) (line msg : String) :
    Except String String :=
  let seg1 := plainHeader filePath lineNumber startColumn endColumn line
  match intRep (startColumn - 1) ' ' with
  | none => .error seg1
  | some sp =>
    match intRep (endColumn - startColumn) '^' with
    | none => .error (seg1 ++ sp)
    | some carets => .ok (seg1 ++ sp ++ carets ++ "\n\n" ++ msg ++ "\n")

/-- How a reportError call ends: a value returned to the caller, exit(code),
or process death by an uncaught exception. -/
inductive ROutcome where
  | ret (v : Int)
  | exited (code : Nat)
  | crashed
  deriving DecidableEq, Repr

/-- Observable result of one reportError call.  attempts counts the
enableAnsiInConsole invocations made by the call and usageAbort records
whether the startColumn > endColumn guard fired; both are history fields.
stdout excludes writes general_log makes to its log file. -/
structure RenderRes where
  outcome : ROutcome
  console : Utils.ConsoleState
  stdout : String
  stderr : String
  attempts : Nat
  usageAbort : Bool
  deriving DecidableEq, Repr

/-- The informational notice of error_report.cpp:44. -/
def ansiNotice : String :=
  "ANSI is not enabled in console. For better and more readable error messages, please enable ANSI!\n"

/-- reportError (error_report.cpp:24-55).  The fstream constructed from the
file path is passed as an explicit FStream; lineNumber, an int, is converted
to unsigned int at the readLineFromFile call site. -/
def reportError (console : Utils.ConsoleState) (file : Utils.FStream)
    (filePath : String) (lineNumber startColumn endColumn : Int)
    (msg : String) : RenderRes :=
  if startColumn > endColumn then
    { outcome := .exited 1, console := console, stdout := "",
      stderr := "[reportError] Start Column is bigger than end column\n",
      attempts := 0, usageAbort := true }
  else
    match (Utils.readLineFromFile file ((lineNumber % 4294967296).toNat)).1 with
    | .error e =>
      { outcome := .exited 1, console := console, stdout := "",
        stderr := "Issue while reporting error: " ++ e.what
          ++ "\n    Error reading from file path: " ++ filePath ++ "\n",
        attempts := 0, usageAbort := false }
    | .ok line =>
      if Utils.isAnsiEnabledInConsole console = false then
        let r := Utils.enableAnsiInConsole console
        if r.1 ≠ 0 then
          match printPlainError filePath lineNumber startColumn endColumn line msg with
          | .error part =>
            { outcome := .crashed, console := r.2, stdout := ansiNotice ++ part,
              stderr := "", attempts := 1, usageAbort := false }
          | .ok out =>
            { outcome := .ret 0, console := r.2, stdout := ansiNotice ++ out,
              stderr := "", attempts := 1, usageAbort := false }
        else
          match printColoredError r.2 filePath lineNumber startColumn endColumn line msg with
          | .error part =>
            { outcome := .crashed, console := r.2, stdout := part,
              stderr := "", attempts := 1, usageAbort := false }
          | .ok out =>
            { outcome := .ret 0, console := r.2, stdout := out,
              stderr := "", attempts := 1, usageAbort := false }
      else
        match printColoredError console filePath lineNumber startColumn endColumn line msg with
        | .error part =>
          { outcome := .crashed, console := console, stdout := part,
            stderr := "", attempts := 0, usageAbort := false }
        | .ok out =>
          { outcome := .ret 0, console := console, stdout := out,
            stderr := "", attempts := 0, usageAbort := false }

/-- Decidable equality for Except results, used to evaluate concrete runs. -/
instance {ε α : Type} [DecidableEq ε] [DecidableEq α] : DecidableEq (Except ε α) := fun a b =>
  match a, b with
  | .error e, .error f =>
    if h : e = f then .isTrue (h ▸ rfl) else .isFalse (fun hc => h (by injection hc))
  | .error _, .ok _ => .isFalse (fun hc => by injection hc)
  | .ok _, .error _ => .isFalse (fun hc => by injection hc)
  | .ok a, .ok b =>
    if h : a = b then .isTrue (h ▸ rfl) else .isFalse (fun hc => h (by injection hc))

/-! ## Fixtures and support lemmas -/

/-- An open stream over a one-line file of 18 characters. -/
def sampleFile : Utils.FStream := ⟨true, "hello world here!!".toList, 0, false, false⟩

/-- An open stream over a two-line file whose content ends in a newline. -/
def twoLineFile : Utils.FStream := ⟨true, "a\nb\n".toList, 0, false, false⟩

theorem restoreF_pos (p : Nat) (f : Utils.FStream) : (Utils.restoreF p f).pos = p := by
  simp [Utils.restoreF, Utils.seekgF, Utils.clearF]

theorem readLoop_pos (origPos : Nat) :
    ∀ (n : Nat) (f : Utils.FStream) (line : String),
      ((Utils.readLoop origPos n f line).2).pos = origPos := by
  intro n
  induction n with
  | zero => intro f line; simp [Utils.readLoop, restoreF_pos]
  | succ m ih =>
    intro f line
    simp only [Utils.readLoop]
    split
    · exact restoreF_pos _ _
    · split
      · exact restoreF_pos _ _
      · exact ih _ _

/-- C5: on every exit path of readLineFromFile — success, a line number past
the end of the file, a read error, and the early not-open / zero-line throws
— the read cursor of the handle is restored, so the position other readers
observe is unchanged by the call regardless of outcome. -/
theorem readLineFromFile_cursor_unchanged (f : Utils.FStream) (lineNum : Nat) :
    ((Utils.readLineFromFile f lineNum).2).pos = f.pos := by
  unfold Utils.readLineFromFile
  split
  · rfl
  · split
    · rfl
    · exact readLoop_pos _ _ _ _

/-- C2: a reportError call with start_column > end_column exits the process
with code 1 having written nothing to standard output (the diagnostic is
never rendered; only a usage notice goes to standard error), and whenever
start_column ≤ end_column that abort branch is never taken. -/
theorem reportError_usage_guard (console : Utils.ConsoleState) (file : Utils.FStream)
    (filePath msg : String) (ln sc ec : Int) :
    (sc > ec →
      (reportError console file filePath ln sc ec msg).outcome = .exited 1
      ∧ (reportError console file filePath ln sc ec msg).stdout = ""
      ∧ (reportError console file filePath ln sc ec msg).usageAbort = true)
    ∧ (sc ≤ ec → (reportError console file filePath ln sc ec msg).usageAbort = false) := by
  constructor
  · intro h
    simp only [reportError, if_pos h]
    exact ⟨trivial, trivial, trivial⟩
  · intro h
    simp only [reportError, if_neg (not_lt.mpr h)]
    split
    · rfl
    · split
      · split
        · split <;> rfl
        · split <;> rfl
      · split <;> rfl

theorem reportError_usage_guard_witness :
    ((15:Int) > 10
      ∧ (reportError (some ⟨true, true⟩) sampleFile "f" 5 15 10 "msg").outcome = .exited 1
      ∧ (reportError (some ⟨true, true⟩) sampleFile "f" 5 15 10 "msg").stdout = ""
      ∧ (reportError (some ⟨true, true⟩) sampleFile "f" 5 15 10 "msg").usageAbort = true)
    ∧ ((10:Int) ≤ 15
      ∧ (reportError (some ⟨true, true⟩) sampleFile "f" 5 10 15 "msg").usageAbort = false) :=
  ⟨⟨by decide, (reportError_usage_guard (some ⟨true, true⟩) sampleFile "f" "msg" 5 15 10).1 (by decide)⟩,
   ⟨by decide, (reportError_usage_guard (some ⟨true, true⟩) sampleFile "f" "msg" 5 10 15).2 (by decide)⟩⟩

/-- C10: whenever reportError actually returns to its caller the value is 0;
the failure paths exit the process (or die on an uncaught exception) instead
of returning, so the integer result never carries failure information. -/
theorem reportError_returns_zero (console : Utils.ConsoleState) (file : Utils.FStream)
    (filePath msg : String) (ln sc ec : Int) (v : Int)
    (h : (reportError console file filePath ln sc ec msg).outcome = .ret v) :
    v = 0 := by
  unfold reportError at h
  split at h
  · simp at h
  · split at h
    · simp at h
    · split at h
      · simp only [ne_eq] at h
        split at h
        · split at h <;> simp_all
        · split at h <;> simp_all
      · split at h <;> simp_all

theorem reportError_returns_zero_witness :
    (reportError (some ⟨true, true⟩) sampleFile "f" 1 1 2 "m").outcome = .ret 0
    ∧ (0:Int) = 0 :=
  ⟨by decide,
   reportError_returns_zero (some ⟨true, true⟩) sampleFile "f" "m" 1 1 2 0 (by decide)⟩

/-- C7 counterexample: the enable attempt is not made at most once per
process.  With no console attached (the enable attempt fails), each of two
successive reportError calls — the second starting from the console state
the first left behind — performs its own enableAnsiInConsole attempt. -/
theorem ansi_enable_reattempted :
    (reportError none sampleFile "f" 1 1 2 "m").attempts = 1
    ∧ (reportError (reportError none sampleFile "f" 1 1 2 "m").console
        sampleFile "f" 1 1 2 "m").attempts = 1 := by decide

/-- C7 amended: when the console mode can be written, a render call that
finds ANSI disabled enables it once and the outcome is cached in the console
mode itself, so a later call that reads the flag as enabled makes no further
attempt; but when the enable attempt fails the failure is not cached — the
console state is left unchanged, so every subsequent render call re-attempts
(attempts = 1 on each call). -/
theorem ansi_enable_caching (file : Utils.FStream) (filePath msg line : String)
    (ln sc ec : Int) (hle : sc ≤ ec)
    (hread : (Utils.readLineFromFile file ((ln % 4294967296).toNat)).1 = .ok line) :
    ((reportError (some ⟨false, true⟩) file filePath ln sc ec msg).attempts = 1
      ∧ (reportError (some ⟨false, true⟩) file filePath ln sc ec msg).console = some ⟨true, true⟩
      ∧ (reportError (some ⟨true, true⟩) file filePath ln sc ec msg).attempts = 0
      ∧ (reportError (some ⟨true, true⟩) file filePath ln sc ec msg).console = some ⟨true, true⟩)
    ∧ ((reportError none file filePath ln sc ec msg).attempts = 1
      ∧ (reportError none file filePath ln sc ec msg).console = none) := by
  simp only [reportError, if_neg (not_lt.mpr hle), hread,
    Utils.isAnsiEnabledInConsole, Utils.enableAnsiInConsole]
  norm_num
  refine ⟨⟨?_, ?_, ?_, ?_⟩, ?_, ?_⟩ <;> (split <;> rfl)

theorem ansi_enable_caching_witness :
    ((1:Int) ≤ 2
      ∧ (Utils.readLineFromFile sampleFile (((1:Int) % 4294967296)).toNat).1
          = .ok "hello world here!!")
    ∧ ((reportError (some ⟨false, true⟩) sampleFile "f" 1 1 2 "m").attempts = 1
      ∧ (reportError (some ⟨false, true⟩) sampleFile "f" 1 1 2 "m").console = some ⟨true, true⟩
      ∧ (reportError (some ⟨true, true⟩) sampleFile "f" 1 1 2 "m").attempts = 0
      ∧ (reportError (some ⟨true, true⟩) sampleFile "f" 1 1 2 "m").console = some ⟨true, true⟩)
    ∧ ((reportError none sampleFile "f" 1 1 2 "m").attempts = 1
      ∧ (reportError none sampleFile "f" 1 1 2 "m").console = none) :=
  ⟨⟨by decide, by decide⟩,
   (ansi_enable_caching sampleFile "f" "m" "hello world here!!" 1 1 2 (by decide) (by decide)).1,
   (ansi_enable_caching sampleFile "f" "m" "hello world here!!" 1 1 2 (by decide) (by decide)).2⟩

/-- C6: readLineFromFile is documented to throw out_of_range when the line
number exceeds the number of lines, and reportError is then meant to fail
with no output; but on a two-line file whose content ends in a newline,
line number 3 is read back as an empty line with no error, and reportError
renders a full diagnostic and returns 0 instead of failing. -/
theorem reportError_renders_line_past_end :
    twoLineFile.content = ("a\nb\n").toList
    ∧ (Utils.readLineFromFile twoLineFile 3).1 = .ok ""
    ∧ (reportError (some ⟨true, true⟩) twoLineFile "f" 3 1 2 "msg").outcome = .ret 0
    ∧ (reportError (some ⟨true, true⟩) twoLineFile "f" 3 1 2 "msg").stdout ≠ "" := by
  refine ⟨rfl, by decide, by decide, by decide⟩

/-- C1 counterexample: an input that contains an opening quote with no
closing quote on which the scan does not fail.  When the quote occurs in
command position, parse_command swallows it as part of the command name:
lex returns a completed token vector, and no abort happens. -/
theorem leading_quote_scan_succeeds :
    lex 50 "\"abc"
      = some (.ok [⟨.TK_Identifier, "\"abc", 1, 1, 4⟩]
                  [⟨.TK_Identifier, "\"abc", 1, 1, 4⟩]) := by decide

/-- C1 amended: the fatal abort holds for quotes the scanner actually treats
as string openers — a quote at token-start in argument position (after the
command token has been found).  From any such state, when parse_string finds
no unescaped closing quote before end-of-input, the whole invocation aborts
at once: the outcome is fatal and no token sequence is delivered. -/
theorem unterminated_argument_string_aborts
    (l : List Char) (fuel : Nat) (s : LexState)
    (hlt : s.i < l.length) (hq : l.getD s.i ' ' = '"')
    (hcf : s.commandFound = true)
    (hnone : parse_string l (s.i + 1) = none) :
    lexRun l (fuel + 1) s = some (.fatal s.emitted)
    ∧ tokensOf (lexRun l (fuel + 1) s) = [] := by
  have hq2 : (l[s.i]?).getD ' ' = '"' := by simpa [List.getD] using hq
  have hstep : lexStep l s = .fatal s := by
    simp [lexStep, hq2, hcf, hnone]
  have hrun : lexRun l (fuel + 1) s = some (.fatal s.emitted) := by
    simp [lexRun, if_pos hlt, hstep]
  exact ⟨hrun, by rw [hrun]; rfl⟩

theorem unterminated_argument_string_aborts_witness :
    (0 < (['"'] : List Char).length
      ∧ (['"'] : List Char).getD 0 ' ' = '"'
      ∧ (LexState.mk true 0 1 1 [] []).commandFound = true
      ∧ parse_string ['"'] (0 + 1) = none)
    ∧ lexRun ['"'] (0 + 1) (LexState.mk true 0 1 1 [] []) = some (.fatal [])
    ∧ tokensOf (lexRun ['"'] (0 + 1) (LexState.mk true 0 1 1 [] [])) = [] :=
  ⟨⟨by decide, by decide, rfl, by decide⟩,
   unterminated_argument_string_aborts ['"'] 0 (LexState.mk true 0 1 1 [] [])
     (by decide) (by decide) rfl (by decide)⟩

/-- C4 counterexample: scanning "x = 5;" does not return the claimed
four-token sequence.  The returned vector is empty (the semicolon flushes
and clears the command), and no EqualsSign or Semicolon token is ever
emitted for this input. -/
theorem scan_assignment_no_operator_tokens :
    tokensOf (lex 50 "x = 5;") = []
    ∧ ((emittedOf (lex 50 "x = 5;")).all fun t =>
        t.type != TokenKind.TK_EqualsSign && t.type != TokenKind.TK_Semicolon) = true := by
  decide

/-- C4 amended: scanning "x = 5;" pushes exactly Identifier "x",
Argument "=" and Integer "5" (the "=" is scanned as a plain argument, and
the line counter is bumped after command detection, so the later tokens
carry line 2), and the terminating semicolon flushes and clears the command
vector, so the call returns the empty token sequence. -/
theorem scan_assignment_result :
    lex 50 "x = 5;"
      = some (.ok []
          [⟨.TK_Identifier, "x", 1, 1, 1⟩,
           ⟨.TK_Argument, "=", 2, 3, 3⟩,
           ⟨.TK_Integer, "5", 2, 5, 5⟩]) := by decide

/-- C8 counterexample: scanning "3.1.4" produces neither a Float token nor
any token with value "3.1"; no anomaly-recording mechanism exists in lex. -/
theorem scan_multidot_no_float :
    ((emittedOf (lex 50 "3.1.4")).all fun t =>
        t.type != TokenKind.TK_Float && t.value != "3.1") = true := by decide

/-- C8 amended: on "3.1.4" the numeric lexeme is digits only — it ends just
before the first dot, which is not consumed — giving Integer "3"; scanning
resumes at that dot and the remainder ".1.4" is consumed as a command
Identifier token.  The call terminates normally: nothing is dropped and no
abort occurs. -/
theorem scan_multidot_result :
    lex 50 "3.1.4"
      = some (.ok
          [⟨.TK_Integer, "3", 1, 1, 1⟩, ⟨.TK_Identifier, ".1.4", 2, 2, 5⟩]
          [⟨.TK_Integer, "3", 1, 1, 1⟩, ⟨.TK_Identifier, ".1.4", 2, 2, 5⟩]) := by decide

theorem str_append_assoc (a b c : String) : a ++ b ++ c = a ++ (b ++ c) := by
  rcases a with ⟨a⟩; rcases b with ⟨b⟩; rcases c with ⟨c⟩
  show String.mk ((a ++ b) ++ c) = String.mk (a ++ (b ++ c))
  rw [List.append_assoc]

/-- The underline the renderer produces for a span: start_column - 1 fill
spaces followed by end_column - start_column caret markers. -/
def underlineOf (startColumn endColumn : Int) : String :=
  (List.replicate (startColumn - 1).toNat ' ').asString
    ++ (List.replicate (endColumn - startColumn).toNat '^').asString

/-- C3: any successful render with 1 ≤ start_column ≤ end_column (and a
source line at least end_column wide) produces, in the rich layout and in
the plain layout alike, the very same underline segment: exactly
start_column - 1 spaces followed by exactly end_column - start_column
carets, placed between the layout header and the trailing message part. -/
theorem underline_layout (console : Utils.ConsoleState) (filePath line msg : String)
    (ln sc ec : Int) (h1 : 1 ≤ sc) (h2 : sc ≤ ec)
    (_hwide : ec ≤ (line.length : Int))
    (hansi : Utils.isAnsiEnabledInConsole console = true) :
    printPlainError filePath ln sc ec line msg
      = .ok (plainHeader filePath ln sc ec line
          ++ underlineOf sc ec ++ "\n\n" ++ msg ++ "\n")
    ∧ printColoredError console filePath ln sc ec line msg
      = .ok (coloredHeader filePath ln sc ec line
          ++ underlineOf sc ec ++ "\n|    \n|    "
          ++ Utils.colorText msg "#94b0ff" ++ "\n" ++ "\n")
    ∧ (underlineOf sc ec).toList
      = List.replicate (sc - 1).toNat ' ' ++ List.replicate (ec - sc).toNat '^' := by
  have hsp : ¬ (sc - 1 < 0) := by omega
  have hcr : ¬ (ec - sc < 0) := by omega
  refine ⟨?_, ?_, ?_⟩
  · simp only [printPlainError, intRep, if_neg hsp, if_neg hcr, underlineOf]
    simp [str_append_assoc]
  · simp only [printColoredError, hansi, Bool.true_eq_false, if_neg, intRep,
      if_neg hsp, if_neg hcr, underlineOf]
    simp [str_append_assoc]
  · show ((List.replicate (sc - 1).toNat ' ').asString
        ++ (List.replicate (ec - sc).toNat '^').asString).data = _
    rw [String.data_append]
    rfl

theorem underline_layout_witness :
    ((1:Int) ≤ 10 ∧ (10:Int) ≤ 14 ∧ (14:Int) ≤ (("abcdefghijklmn".length : Nat) : Int)
      ∧ Utils.isAnsiEnabledInConsole (some ⟨true, true⟩) = true)
    ∧ (printPlainError "f" 5 10 14 "abcdefghijklmn" "msg").isOk = true
    ∧ (printColoredError (some ⟨true, true⟩) "f" 5 10 14 "abcdefghijklmn" "msg").isOk = true
    ∧ (underlineOf 10 14).toList = List.replicate 9 ' ' ++ List.replicate 4 '^' := by
  have h := underline_layout (some ⟨true, true⟩) "f" "abcdefghijklmn" "msg" 5 10 14
    (by decide) (by decide) (by decide) rfl
  refine ⟨⟨by decide, by decide, by decide, rfl⟩, ?_, ?_, by decide⟩
  · rw [h.1]; rfl
  · rw [h.2.1]; rfl

/-! ## The scan ordering invariant (C9) -/

/-- Strict placement: token u starts strictly after token t ends (later
line, or same line and a later column past the end of t). -/
def tokBefore (t u : Token) : Prop :=
  t.line < u.line ∨ (t.line = u.line ∧ t.end_column < u.start_column)

/-- The ordering stated by the spec: (line, start_column) does not decrease,
and two tokens of the same line have disjoint column spans. -/
def tokOrdered (t u : Token) : Prop :=
  (t.line < u.line ∨ (t.line = u.line ∧ t.start_column ≤ u.start_column))
  ∧ (t.line = u.line → t.end_column < u.start_column)

/-- All emitted tokens lie strictly before the current scan position. -/
def emBound (em : List Token) (line col : Nat) : Prop :=
  ∀ t ∈ em, t.line < line ∨ (t.line = line ∧ t.end_column < col)

/-- Invariant carried through the lex loop. -/
def LexInv (s : LexState) : Prop :=
  s.emitted.Pairwise tokBefore
  ∧ (∀ t ∈ s.emitted, t.start_column ≤ t.end_column)
  ∧ emBound s.emitted s.line s.column

theorem emBound_mono {em : List Token} {line col line1 col1 : Nat}
    (hb : emBound em line col)
    (hpos : line < line1 ∨ (line = line1 ∧ col ≤ col1)) :
    emBound em line1 col1 := by
  intro t ht
  rcases hb t ht with h | ⟨ha, hc⟩ <;> omega

theorem inv_emit {em : List Token} {line col : Nat} {tok : Token} {line1 col1 : Nat}
    (hp : em.Pairwise tokBefore)
    (hwf : ∀ t ∈ em, t.start_column ≤ t.end_column)
    (hb : emBound em line col)
    (ht1 : tok.line = line) (ht2 : tok.start_column = col)
    (ht3 : tok.start_column ≤ tok.end_column)
    (hpos : line < line1 ∨ (line = line1 ∧ col ≤ col1 ∧ tok.end_column < col1)) :
    (em ++ [tok]).Pairwise tokBefore
    ∧ (∀ t ∈ em ++ [tok], t.start_column ≤ t.end_column)
    ∧ emBound (em ++ [tok]) line1 col1 := by
  refine ⟨?_, ?_, ?_⟩
  · rw [List.pairwise_append]
    refine ⟨hp, by simp, ?_⟩
    intro a ha b hbm
    simp only [List.mem_singleton] at hbm
    subst hbm
    rcases hb a ha with h | ⟨ha1, ha2⟩
    · exact Or.inl (by omega)
    · exact Or.inr ⟨by omega, by omega⟩
  · intro t ht
    rcases List.mem_append.mp ht with h | h
    · exact hwf t h
    · simp only [List.mem_singleton] at h
      subst h; exact ht3
  · intro t ht
    rcases List.mem_append.mp ht with h | h
    · rcases hb t h with h2 | h2 <;> rcases hpos with h3 | h3 <;> omega
    · simp only [List.mem_singleton] at h
      subst h
      rcases hpos with h3 | h3 <;> omega

theorem inv_postFlush (l : List Char) (s : LexState) (h : LexInv s) :
    LexInv (postFlush l s) := by
  obtain ⟨hp, hwf, hb⟩ := h
  unfold postFlush
  split
  · split
    · split
      · exact ⟨hp, hwf, emBound_mono hb (Or.inl (Nat.lt_succ_self _))⟩
      · exact ⟨hp, hwf, emBound_mono hb (Or.inr ⟨rfl, Nat.le_succ _⟩)⟩
    · exact ⟨hp, hwf, hb⟩
  · exact ⟨hp, hwf, hb⟩

theorem takeWhile_len_pos {l : List Char} {i : Nat} {p : Char → Bool}
    (hi : i < l.length) (hp : p (l.getD i ' ') = true) :
    1 ≤ ((l.drop i).takeWhile p).length := by
  rw [List.getD_eq_getElem _ _ hi] at hp
  rw [List.drop_eq_getElem_cons hi, List.takeWhile_cons]
  simp [hp]

theorem lt_of_getD_ne {l : List Char} {i : Nat} {d : Char}
    (h : l.getD i d ≠ d) : i < l.length := by
  by_contra hc
  exact h (List.getD_eq_default _ _ (by omega))

theorem inv_lexStep (l : List Char) (s s1 : LexState) (hinv : LexInv s)
    (hstep : lexStep l s = .next s1) : LexInv s1 := by
  obtain ⟨hp, hwf, hb⟩ := hinv
  simp only [lexStep] at hstep
  by_cases hws : l.getD s.i ' ' = ' ' ∨ l.getD s.i ' ' = '\n'
  · rw [if_pos hws] at hstep
    by_cases hnl : l.getD s.i ' ' = '\n'
    · rw [if_pos hnl] at hstep
      cases hstep
      exact ⟨hp, hwf, emBound_mono hb (Or.inl (Nat.lt_succ_self _))⟩
    · rw [if_neg hnl] at hstep
      cases hstep
      exact ⟨hp, hwf, emBound_mono hb (Or.inr ⟨rfl, Nat.le_succ _⟩)⟩
  · rw [if_neg hws] at hstep
    push_neg at hws
    have hi : s.i < l.length := lt_of_getD_ne hws.1
    by_cases hcf : s.commandFound = false
    · rw [if_pos hcf] at hstep
      by_cases hdig : (l.getD s.i ' ').isDigit = true
      · rw [if_pos hdig] at hstep
        cases hstep
        have hlen := takeWhile_len_pos hi hdig
        have hn : 1 ≤ parse_integer l s.i - s.i := by unfold parse_integer; omega
        exact inv_emit hp hwf hb rfl rfl
          (show s.column ≤ s.column + (parse_integer l s.i - s.i) - 1 by omega)
          (Or.inl (Nat.lt_succ_self _))
      · rw [if_neg hdig] at hstep
        by_cases hj : parse_command l s.i = s.i
        · rw [if_pos hj] at hstep
          cases hstep
          exact ⟨hp, hwf, emBound_mono hb (Or.inl (Nat.lt_succ_self _))⟩
        · rw [if_neg hj] at hstep
          cases hstep
          have hn : 1 ≤ parse_command l s.i - s.i := by
            unfold parse_command at hj ⊢
            omega
          exact inv_emit hp hwf hb rfl rfl
            (show s.column ≤ s.column + (parse_command l s.i - s.i) - 1 by omega)
            (Or.inl (Nat.lt_succ_self _))
    · rw [if_neg hcf] at hstep
      by_cases hsemi : l.getD s.i ' ' = ';'
      · rw [if_pos hsemi] at hstep
        cases hstep
        exact inv_emit hp hwf hb rfl rfl (Nat.le_refl _)
          (Or.inr ⟨rfl, Nat.le_succ _, Nat.lt_succ_self _⟩)
      · rw [if_neg hsemi] at hstep
        by_cases hq : l.getD s.i ' ' = '"'
        · rw [if_pos hq] at hstep
          cases hps : parse_string l (s.i + 1) with
          | none => rw [hps] at hstep; cases hstep
          | some j =>
            rw [hps] at hstep
            cases hstep
            unfold parse_string at hps
            obtain ⟨n, -, hj⟩ := Option.map_eq_some'.mp hps
            apply inv_postFlush
            exact inv_emit hp hwf hb rfl rfl
              (show s.column ≤ (s.column + 1) + (j - s.i) - 2 by omega)
              (Or.inr ⟨rfl,
                show s.column ≤ (s.column + 1) + (j - s.i) by omega,
                show (s.column + 1) + (j - s.i) - 2 < (s.column + 1) + (j - s.i) by omega⟩)
        · rw [if_neg hq] at hstep
          by_cases hdig : (l.getD s.i ' ').isDigit = true
          · rw [if_pos hdig] at hstep
            cases hstep
            have hlen := takeWhile_len_pos hi hdig
            have hn : 1 ≤ parse_integer l s.i - s.i := by unfold parse_integer; omega
            apply inv_postFlush
            exact inv_emit hp hwf hb rfl rfl
              (show s.column ≤ s.column + (parse_integer l s.i - s.i) - 1 by omega)
              (Or.inr ⟨rfl, Nat.le_add_right _ _,
                show s.column + (parse_integer l s.i - s.i) - 1
                  < s.column + (parse_integer l s.i - s.i) by omega⟩)
          · rw [if_neg hdig] at hstep
            by_cases hj : parse_argument l s.i = s.i
            · rw [if_pos hj] at hstep
              cases hstep
              apply inv_postFlush
              exact ⟨hp, hwf, emBound_mono hb (Or.inr ⟨rfl, Nat.le_add_right _ _⟩)⟩
            · rw [if_neg hj] at hstep
              cases hstep
              have hn : 1 ≤ parse_argument l s.i - s.i := by
                unfold parse_argument at hj ⊢
                omega
              apply inv_postFlush
              exact inv_emit hp hwf hb rfl rfl
                (show s.column ≤ s.column + (parse_argument l s.i - s.i) - 1 by omega)
                (Or.inr ⟨rfl, Nat.le_add_right _ _,
                  show s.column + (parse_argument l s.i - s.i) - 1
                    < s.column + (parse_argument l s.i - s.i) by omega⟩)

theorem lexStep_fatal_eq (l : List Char) (s s1 : LexState)
    (h : lexStep l s = .fatal s1) : s1 = s := by
  simp only [lexStep] at h
  repeat' split at h
  all_goals simp_all

theorem inv_lexRun (l : List Char) :
    ∀ (fuel : Nat) (s : LexState) (out : LexOutcome),
      LexInv s → lexRun l fuel s = some out →
      (emittedOf (some out)).Pairwise tokBefore
      ∧ ∀ t ∈ emittedOf (some out), t.start_column ≤ t.end_column := by
  intro fuel
  induction fuel with
  | zero =>
    intro s out _ h
    simp [lexRun] at h
  | succ m ih =>
    intro s out hinv h
    rw [lexRun] at h
    by_cases hi : s.i < l.length
    · rw [if_pos hi] at h
      cases hstep : lexStep l s with
      | next s2 =>
        rw [hstep] at h
        exact ih s2 out (inv_lexStep l s s2 hinv hstep) h
      | fatal s2 =>
        rw [hstep] at h
        cases h
        have hs : s2 = s := lexStep_fatal_eq l s s2 hstep
        subst hs
        exact ⟨hinv.1, hinv.2.1⟩
    · rw [if_neg hi] at h
      cases h
      exact ⟨hinv.1, hinv.2.1⟩

/-- C9: for every input and fuel, whenever the scan completes (normally or
by the fatal string abort), the tokens it emitted are in non-decreasing
(line, start_column) lexicographic order and no two of them overlap in
their column spans on the same line. -/
theorem lex_tokens_ordered (fuel : Nat) (input : String)
    (h : (lex fuel input).isSome = true) :
    (emittedOf (lex fuel input)).Pairwise tokOrdered := by
  obtain ⟨out, hout⟩ := Option.isSome_iff_exists.mp h
  have hinv : LexInv initState :=
    ⟨List.Pairwise.nil, by intro t ht; simp [initState] at ht,
      by intro t ht; simp [initState] at ht⟩
  have hrun : lexRun input.toList fuel initState = some out := hout
  have hmain := inv_lexRun input.toList fuel initState out hinv hrun
  have hlex : lex fuel input = some out := hout
  rw [hlex]
  refine hmain.1.imp_of_mem ?_
  intro a b ha hb hab
  have hwa := hmain.2 a ha
  simp only [tokBefore] at hab
  simp only [tokOrdered]
  omega

theorem lex_tokens_ordered_witness :
    (lex 50 "x = 5;").isSome = true
    ∧ (emittedOf (lex 50 "x = 5;")).Pairwise tokOrdered :=
  ⟨by decide, lex_tokens_ordered 50 "x = 5;" (by decide)⟩

end Bassil
